import Mathlib

/-!
  # Linamar PAC Line — verification of the manufacturing dashboard core

  A shallow embedding of the quality-inspection dashboard of the Linamar
  PAC line repository.  The presentation layer is embedded directly from
  its JavaScript sources (`dashboard.js`, `final_station_dashboard.js`,
  and the earlier dashboard variants); the backend components that the
  repository ships only as callers (tolerance evaluation, box accounting,
  the final-station PLC controller) are modelled from the specification,
  each such definition marked `Modelled from the spec`.

  Conventions of the embedding:
  * JavaScript numbers are rationals (`ℚ`); counts are naturals.
  * A possibly-absent field is an `Option`; the JavaScript `x || d`
    default on such a field is `Option.getD`.
  * A backend RPC that can throw is an `Except String` input to the
    function that awaits it; a function that catches everything is total.
  * DOM and chart side effects are not part of the modelled state: only
    the `useState` component state is carried.
-/

namespace PacLine

/-! ## Tolerance evaluator (spec section 4.2)

The Tolerance Evaluator itself is backend code that is not among the
source files; it is modelled from the spec. -/

/-- Modelled from the spec: rounding of a measurement value to a fixed
decimal precision of 3 fractional digits, applied to a value before any
tolerance comparison: the integer nearest to `v * 1000` (ties rounded
half up, `Rat.floor (x + 1 / 2)`), scaled back down.  The missing code is
the backend Tolerance Evaluator. -/
def round3 (v : ℚ) : ℚ := ((v * 1000 + 1 / 2).floor : ℤ) / 1000

/-- Modelled from the spec: the pure tolerance check
`(value, nominal, low, high) → within_tolerance`, membership of the
rounded value in the inclusive interval `[nominal + low, nominal + high]`.
The missing code is the backend Tolerance Evaluator. -/
def within_tolerance (value nominal low high : ℚ) : Bool :=
  decide (nominal + low ≤ round3 value) && decide (round3 value ≤ nominal + high)

/-! ## Status and result CSS classes

`getStatusClass` appears twice in the repository: the modern dashboard
(`dashboard.js` lines 398-406) uses a lookup table with a
`status-unknown` fallback, while the first dashboard variant
(`unnamed/part_000` lines 74-76) builds the class with a template
string.  `getResultClass` is textually identical in `dashboard.js`
(lines 448-455) and `final_station_dashboard.js` (lines 679-686). -/

namespace Dashboard

/-- Embedded from `dashboard.js` lines 398-406: the status-class lookup
table, with `status-unknown` for any key the table does not hold. -/
def getStatusClass (status : String) : String :=
  if status = "running" then "status-running"
  else if status = "stopped" then "status-stopped"
  else if status = "error" then "status-error"
  else if status = "maintenance" then "status-maintenance"
  else "status-unknown"

/-- Embedded from `dashboard.js` lines 448-455: the badge class for a
measurement result, switching on `ok`, `nok` and `pending` with a
`badge-secondary` default. -/
def getResultClass (result : String) : String :=
  if result = "ok" then "badge-success"
  else if result = "nok" then "badge-danger"
  else if result = "pending" then "badge-warning"
  else "badge-secondary"

end Dashboard

namespace Part000

/-- Embedded from `unnamed/part_000` lines 74-76: the template-string
status class. -/
def getStatusClass (status : String) : String :=
  "status-" ++ status

end Part000

namespace FinalStation

/-- Embedded from `final_station_dashboard.js` lines 679-686: identical
to `Dashboard.getResultClass`. -/
def getResultClass (result : String) : String :=
  if result = "ok" then "badge-success"
  else if result = "nok" then "badge-danger"
  else if result = "pending" then "badge-warning"
  else "badge-secondary"

end FinalStation

/-! ## `formatMeasurement` (dashboard.js lines 439-444, part_001 lines 461-466)

The function receives a JavaScript value; the input domain the claims
quantify over is `null`, `undefined`, the empty string, and finite
numbers.  General numeric strings (which the code would feed through
`parseFloat`) are outside that domain and are not modelled. -/

/-- A JavaScript value in the input domain of `formatMeasurement`. -/
inductive JSVal where
  | jsNull
  | jsUndefined
  | emptyString
  | num (q : ℚ)
deriving DecidableEq

/-- The semantics of `Number.prototype.toFixed(3)` on a finite number:
strip the sign, pick the integer `n` nearest to `|q| * 1000` (ties
upward), and print `n` split as integer part, a dot, and exactly three
fraction digits. -/
def toFixed3 (q : ℚ) : String :=
  let sign : String := if q < 0 then "-" else ""
  let n : ℤ := (|q| * 1000 + 1 / 2).floor
  let f : ℕ := (n % 1000).toNat
  sign ++ toString (n / 1000) ++ "." ++
    String.mk [Nat.digitChar (f / 100), Nat.digitChar (f / 10 % 10), Nat.digitChar (f % 10)]

namespace Dashboard

/-- Embedded from `dashboard.js` lines 439-444: `null`, `undefined` and
the empty string render as `0.000`; a number renders through
`parseFloat(value || 0).toFixed(3)`, which on a finite number is
`toFixed3`. -/
def formatMeasurement (value : JSVal) : String :=
  match value with
  | .jsNull => "0.000"
  | .jsUndefined => "0.000"
  | .emptyString => "0.000"
  | .num q => toFixed3 q

end Dashboard

namespace Part001

/-- Embedded from `unnamed/part_001` lines 461-466: textually identical
to the `dashboard.js` definition. -/
def formatMeasurement (value : JSVal) : String :=
  match value with
  | .jsNull => "0.000"
  | .jsUndefined => "0.000"
  | .emptyString => "0.000"
  | .num q => toFixed3 q

end Part001

/-- The characters after the last dot of a string — the rendered
fractional digits of a decimal numeral. -/
def fracAfterLastDot (s : String) : List Char :=
  (s.data.reverse.takeWhile (fun c => c != '.')).reverse

/-! ## Dashboard statistics (part_000 `processStatistics`, dashboard.js state)

The statistics object carried by the dashboard state and produced from
`read_group` rows over `manufacturing.part.quality`. -/

/-- The four-field statistics object of the dashboards (the shape of the
zeroed fallback literal in `dashboard.js` lines 105-110 and 131-137 and
of the accumulator in `part_000` lines 53-58). -/
@[ext]
structure Statistics where
  total_parts : ℕ
  passed_parts : ℕ
  rejected_parts : ℕ
  pending_parts : ℕ
deriving DecidableEq

/-- The all-zero statistics literal of `dashboard.js`. -/
def zeroStatistics : Statistics := ⟨0, 0, 0, 0⟩

namespace Part000

/-- One `read_group` result row: a `final_result` key and its `__count`. -/
structure StatGroup where
  final_result : String
  count : ℕ
deriving DecidableEq

/-- The loop body of `processStatistics` (`unnamed/part_000` lines
60-69): add the count of the row into `total_parts`, then assign (not
add) the count to the field matching the `final_result` key. -/
def statStep (result : Statistics) (stat : StatGroup) : Statistics :=
  let result := { result with total_parts := result.total_parts + stat.count }
  if stat.final_result = "pass" then { result with passed_parts := stat.count }
  else if stat.final_result = "reject" then { result with rejected_parts := stat.count }
  else if stat.final_result = "pending" then { result with pending_parts := stat.count }
  else result

/-- Embedded from `unnamed/part_000` lines 52-72: fold the rows over the
zero accumulator. -/
def processStatistics (stats : List StatGroup) : Statistics :=
  stats.foldl statStep ⟨0, 0, 0, 0⟩

/-- The `__count` of the first row carrying the given key, `0` when no
row does. -/
def lookupCount (stats : List StatGroup) (key : String) : ℕ :=
  match stats.find? (fun stat => stat.final_result == key) with
  | some stat => stat.count
  | none => 0

/-- The sum of all rows' `__count` fields. -/
def sumCounts (stats : List StatGroup) : ℕ :=
  (stats.map StatGroup.count).sum

end Part000

/-! ## The modern dashboard component state (dashboard.js)

Only the `useState` fields that `loadDashboardData`, `selectMachine` and
`loadMachineDetail` read or write are carried; the `loading` flag and
`tableFilter` (an input of the RPC calls, never written by these
functions) and the chart instances are outside the modelled state. -/

/-- A machine entry of the dashboard machine list; the embedded
functions only ever read its `id`. -/
structure Machine where
  id : ℕ
deriving DecidableEq

/-- The payload of `get_machine_detail_data`: an optional `error` reason
or detail content (records and a summary, abstracted to their shape). -/
structure DetailPayload where
  error : Option String
  records : List String
  summary_total : ℕ
deriving DecidableEq

/-- The payload of `get_enhanced_dashboard_data`; either field may be
absent, the code defaults them with `|| []` and `|| {}`. -/
structure DashData where
  machines : Option (List Machine)
  statistics : Option Statistics
deriving DecidableEq

/-- The dashboard component state (`dashboard.js` lines 22-30 restricted
to the fields the embedded functions touch).  `statistics = none` models
the empty object `{}`. -/
structure DashState where
  machines : List Machine
  statistics : Option Statistics
  selectedMachine : Option Machine
  machineDetailData : Option DetailPayload
  error : Option String
deriving DecidableEq

namespace Dashboard

/-- Embedded from `dashboard.js` lines 223-246: on a thrown RPC fault
record a fixed message; on a payload carrying `error` record that reason
and return (the held detail data is kept); otherwise store the payload
and clear the error.  Total: nothing is rethrown. -/
def loadMachineDetail (res : Except String DetailPayload) (st : DashState) : DashState :=
  match res with
  | .error _ => { st with error := some "Failed to load machine details" }
  | .ok data =>
    match data.error with
    | some e => { st with error := some e }
    | none => { st with machineDetailData := some data, error := none }

/-- Embedded from `dashboard.js` lines 211-221: select a machine, clear
the stale detail data, and load the detail payload (the deferred chart
rendering has no component-state effect). -/
def selectMachine (detailRes : Except String DetailPayload) (machine : Machine)
    (st : DashState) : DashState :=
  loadMachineDetail detailRes
    { st with selectedMachine := some machine, machineDetailData := none }

/-- Embedded from `dashboard.js` lines 86-112, the inner try of
`loadDashboardData`: try `get_enhanced_dashboard_data` (a timeout is one
of its failure modes); on failure fall back to a basic `searchRead`
wrapped with zeroed statistics; the fallback failing escapes to the
outer catch. -/
def fetchDashboardData (enhancedRes : Except String DashData)
    (searchRes : Except String (List Machine)) : Except String DashData :=
  match enhancedRes with
  | .ok data => .ok data
  | .error _ =>
    match searchRes with
    | .ok machines => .ok ⟨some machines, some zeroStatistics⟩
    | .error e => .error e

/-- Embedded from `dashboard.js` lines 77-139: on fetched data, store
the machine list (defaulted to `[]`), the statistics and a cleared
error, then auto-select the first machine when the list is nonempty; on
a fetch that failed through both paths, record the failure message and
set the empty list and zeroed statistics.  Total: no fault propagates to
the caller. -/
def loadDashboardData (enhancedRes : Except String DashData)
    (searchRes : Except String (List Machine))
    (detailRes : Except String DetailPayload) (st : DashState) : DashState :=
  match fetchDashboardData enhancedRes searchRes with
  | .error e =>
    { st with error := some ("Failed to load dashboard data: " ++ e),
              machines := [], statistics := some zeroStatistics }
  | .ok data =>
    let st := { st with machines := data.machines.getD [],
                        statistics := data.statistics,
                        error := none }
    match st.machines with
    | [] => st
    | m :: _ => selectMachine detailRes m st

end Dashboard

/-! ## Final-station statistics loading (final_station_dashboard.js) -/

/-- The final-station statistics block of the component state
(`final_station_dashboard.js` lines 17-24). -/
structure FinalStats where
  total_parts : ℕ
  passed_parts : ℕ
  rejected_parts : ℕ
  pass_rate : ℚ
  reject_rate : ℚ
  last_updated : String
deriving DecidableEq

/-- The payload of `get_final_station_statistics`: an optional `error`
reason, and each statistics field possibly absent (the code defaults
them with `|| 0` and `|| 'Never'`). -/
structure StatsPayload where
  error : Option String
  total_parts : Option ℕ
  passed_parts : Option ℕ
  rejected_parts : Option ℕ
  pass_rate : Option ℚ
  reject_rate : Option ℚ
  last_updated : Option String
deriving DecidableEq

/-- The final-station dashboard component state restricted to the fields
`loadFinalStationStatistics` reads or writes. -/
structure FSState where
  final_station : Option Machine
  final_station_statistics : FinalStats
deriving DecidableEq

namespace FinalStation

/-- Embedded from `final_station_dashboard.js` lines 176-207: return
unchanged when no final station is loaded; on a payload that is present
and carries no error, replace the statistics with the payload fields
defaulted (`|| 0`, `|| 'Never'`); on an absent payload, a payload with
an error, or a thrown RPC fault, keep the held statistics.  Total:
nothing is rethrown. -/
def loadFinalStationStatistics (res : Except String (Option StatsPayload))
    (st : FSState) : FSState :=
  match st.final_station with
  | none => st
  | some _ =>
    match res with
    | .error _ => st
    | .ok none => st
    | .ok (some data) =>
      match data.error with
      | some _ => st
      | none =>
        { st with final_station_statistics :=
            { total_parts := data.total_parts.getD 0
              passed_parts := data.passed_parts.getD 0
              rejected_parts := data.rejected_parts.getD 0
              pass_rate := data.pass_rate.getD 0
              reject_rate := data.reject_rate.getD 0
              last_updated := data.last_updated.getD "Never" } }

end FinalStation

/-! ## Final Station Controller (spec sections 4.5 and 3, FinalStationState)

The backend `manual_trigger_camera` method of
`manufacturing.machine.config` is not among the source files — the
dashboard (`final_station_dashboard.js` lines 509-529) only invokes it —
so the controller is modelled from the spec. -/

/-- Modelled from the spec: the `FinalStationState` live device session
of the data model (operation mode, PLC liveness, the camera and
part-presence signals, the `processing_part` mutual-exclusion flag,
last serial and result, the monitoring flag, scan rate and error
counter).  The missing code is the backend Final Station Controller. -/
structure ControllerState where
  operation_mode : String
  plc_online : Bool
  camera_triggered : Bool
  part_present : Bool
  processing_part : Bool
  last_serial_number : String
  last_result : String
  monitoring_active : Bool
  plc_scan_rate : ℕ
  error_count : ℕ
deriving DecidableEq

/-- The result of a manual control action: success or failure, a
human-readable message, and the controller state after the action. -/
structure ActionResult where
  success : Bool
  message : String
  state : ControllerState
deriving DecidableEq

/-- Modelled from the spec: the camera trigger request.  While
`processing_part` is true a second trigger request is rejected, not
queued, leaving the state untouched; a trigger is otherwise permitted
only with the PLC connected, and an accepted trigger raises the camera
and mutual-exclusion flags.  The missing code is the backend
`manual_trigger_camera` of the Final Station Controller. -/
def manual_trigger_camera (s : ControllerState) : ActionResult :=
  if s.processing_part then
    ⟨false, "Camera trigger rejected: a part is already being processed", s⟩
  else if !s.plc_online then
    ⟨false, "Camera trigger rejected: PLC not connected", s⟩
  else
    ⟨true, "Camera triggered",
      { s with camera_triggered := true, processing_part := true }⟩

/-! ## Box accounting (spec section 4.6)

Box accounting is backend code that is not among the source files — the
dashboards only read open-box summaries — so it is modelled from the
spec: one open box per type, arrivals append, a box reaching capacity
540 is sealed atomically with its member list frozen, and the next box
of that type opens on the next arrival (an empty open list). -/

/-- The box type, fixed by station topology. -/
inductive BoxType where
  | exhaust
  | intake
deriving DecidableEq

/-- The fixed box capacity. -/
def boxCapacity : ℕ := 540

/-- Modelled from the spec: the box-accounting state — the members of
the currently open box of each type (by `PartQuality` identifier) and
the sealed boxes with their frozen member lists.  The missing code is
the backend Box Accounting component. -/
structure BoxSys where
  openExhaust : List ℕ
  openIntake : List ℕ
  sealedBoxes : List (BoxType × List ℕ)
deriving DecidableEq

/-- The state with no boxes yet. -/
def BoxSys.start : BoxSys := ⟨[], [], []⟩

/-- The members of the open box of the given type. -/
def openMembers (s : BoxSys) (t : BoxType) : List ℕ :=
  match t with
  | .exhaust => s.openExhaust
  | .intake => s.openIntake

/-- Every member of every box, open and sealed. -/
def allMembers (s : BoxSys) : List ℕ :=
  s.openExhaust ++ s.openIntake ++ (s.sealedBoxes.map Prod.snd).flatten

/-- Modelled from the spec: one consolidated `PartQuality` verdict
arriving at box accounting.  A part already attributed to a box is not
attributed again (the uniqueness discipline of the store); otherwise it
is appended to the open box of its type, and the box is sealed in the
same atomic step when it reaches capacity.  The missing code is the
backend Box Accounting component. -/
def addPart (s : BoxSys) (t : BoxType) (pid : ℕ) : BoxSys :=
  if pid ∈ allMembers s then s
  else if boxCapacity ≤ (openMembers s t ++ [pid]).length then
    match t with
    | .exhaust => { s with openExhaust := [],
                           sealedBoxes := (t, openMembers s t ++ [pid]) :: s.sealedBoxes }
    | .intake => { s with openIntake := [],
                          sealedBoxes := (t, openMembers s t ++ [pid]) :: s.sealedBoxes }
  else
    match t with
    | .exhaust => { s with openExhaust := openMembers s t ++ [pid] }
    | .intake => { s with openIntake := openMembers s t ++ [pid] }

/-- The box-accounting states reachable from the empty start state by
arrivals. -/
inductive Reachable : BoxSys → Prop where
  | start : Reachable BoxSys.start
  | step (s : BoxSys) (t : BoxType) (pid : ℕ) :
      Reachable s → Reachable (addPart s t pid)

/-- The box-accounting invariant: the open box of each type is strictly
below capacity, every sealed box holds exactly a full lot, and no part
identifier occurs in two places. -/
def BoxInv (s : BoxSys) : Prop :=
  s.openExhaust.length < boxCapacity ∧
  s.openIntake.length < boxCapacity ∧
  (∀ b ∈ s.sealedBoxes, (Prod.snd b).length = boxCapacity) ∧
  (allMembers s).Nodup

/-! ## Theorems -/

/-- C1: for every measurement value and tolerance triple, the tolerance
evaluator accepts exactly when the value rounded to three fractional
digits lies between `nominal + low` and `nominal + high`, both ends
inclusive; the value is rounded before the comparison, the bounds are
not rounded. -/
theorem C1_within_tolerance_iff (value nominal low high : ℚ) :
    within_tolerance value nominal low high = true ↔
      (nominal + low ≤ round3 value ∧ round3 value ≤ nominal + high) := by
  simp [within_tolerance]

/-- C3: whenever the final-station controller's `processing_part` flag
is set, a camera trigger request is rejected — not queued — and the
controller state is left exactly as it was. -/
theorem C3_trigger_rejected_when_processing (s : ControllerState)
    (h : s.processing_part = true) :
    (manual_trigger_camera s).success = false ∧
      (manual_trigger_camera s).state = s := by
  simp [manual_trigger_camera, h]

/-- Witness for C3 at a concrete busy controller state. -/
theorem C3_trigger_rejected_when_processing_witness :
    (⟨"auto", true, false, true, true, "SN1", "pending", true, 500, 0⟩ :
        ControllerState).processing_part = true ∧
    ((manual_trigger_camera
        ⟨"auto", true, false, true, true, "SN1", "pending", true, 500, 0⟩).success = false ∧
      (manual_trigger_camera
        ⟨"auto", true, false, true, true, "SN1", "pending", true, 500, 0⟩).state =
        ⟨"auto", true, false, true, true, "SN1", "pending", true, 500, 0⟩) :=
  ⟨rfl, C3_trigger_rejected_when_processing _ rfl⟩

/-- C5: a `get_machine_detail_data` payload carrying an `error` field
makes `loadMachineDetail` record that reason in the dashboard error
state and return with everything else — in particular the held
`machineDetailData` — unchanged; nothing is rethrown. -/
theorem C5_loadMachineDetail_error_payload (data : DetailPayload)
    (st : DashState) (e : String) (he : data.error = some e) :
    Dashboard.loadMachineDetail (.ok data) st = { st with error := some e } ∧
      (Dashboard.loadMachineDetail (.ok data) st).machineDetailData =
        st.machineDetailData := by
  constructor <;> simp [Dashboard.loadMachineDetail, he]

/-- Witness for C5 at a concrete error payload. -/
theorem C5_loadMachineDetail_error_payload_witness :
    (⟨some "No records found", [], 0⟩ : DetailPayload).error = some "No records found" ∧
    (Dashboard.loadMachineDetail (.ok ⟨some "No records found", [], 0⟩)
        ⟨[], none, none, none, none⟩ =
      { (⟨[], none, none, none, none⟩ : DashState) with error := some "No records found" } ∧
      (Dashboard.loadMachineDetail (.ok ⟨some "No records found", [], 0⟩)
        ⟨[], none, none, none, none⟩).machineDetailData =
        (⟨[], none, none, none, none⟩ : DashState).machineDetailData) :=
  ⟨rfl, C5_loadMachineDetail_error_payload ⟨some "No records found", [], 0⟩
    ⟨[], none, none, none, none⟩ "No records found" rfl⟩

/-- C9: on the four configured machine status values the two
`getStatusClass` implementations — the lookup table of `dashboard.js`
and the template string of `part_000` — agree. -/
theorem C9_getStatusClass_agree (status : String)
    (h : status ∈ ["running", "stopped", "error", "maintenance"]) :
    Dashboard.getStatusClass status = Part000.getStatusClass status := by
  simp only [List.mem_cons, List.not_mem_nil, or_false] at h
  rcases h with rfl | rfl | rfl | rfl <;> decide

/-- Witness for C9 at `running`. -/
theorem C9_getStatusClass_agree_witness :
    "running" ∈ ["running", "stopped", "error", "maintenance"] ∧
      Dashboard.getStatusClass "running" = Part000.getStatusClass "running" :=
  ⟨by decide, C9_getStatusClass_agree "running" (by decide)⟩

/-- C7 counterexample: the claim places the presentation-layer result
domain at `pass`, `fail`, `pending`, but `getResultClass` — the
presentation layer's own case analysis of a measurement result — sends
`pass` to the unknown-value fallback class `badge-secondary`, so `pass`
is not a recognized result value. -/
theorem C7_counterexample :
    ¬ (Dashboard.getResultClass "pass" ≠ "badge-secondary" ↔
        ("pass" = "pass" ∨ "pass" = "fail" ∨ "pass" = "pending")) := by
  decide

/-- C7 amended: the three-value result domain the presentation layer
recognizes for measurement records is `ok`, `nok`, `pending` — exactly
these receive a dedicated badge class, identically in both dashboard
files, while `pass` and `fail` fall through to the fallback. -/
theorem C7_result_domain :
    (∀ result : String,
      Dashboard.getResultClass result ≠ "badge-secondary" ↔
        (result = "ok" ∨ result = "nok" ∨ result = "pending")) ∧
    (∀ result : String,
      FinalStation.getResultClass result = Dashboard.getResultClass result) ∧
    Dashboard.getResultClass "pass" = "badge-secondary" ∧
    Dashboard.getResultClass "fail" = "badge-secondary" := by
  refine ⟨fun result => ?_, fun result => rfl, by decide, by decide⟩
  by_cases h1 : result = "ok"
  · subst h1; decide
  by_cases h2 : result = "nok"
  · subst h2; decide
  by_cases h3 : result = "pending"
  · subst h3; decide
  have hfall : Dashboard.getResultClass result = "badge-secondary" := by
    simp [Dashboard.getResultClass, h1, h2, h3]
  simp [hfall, h1, h2, h3]

/-- The rendered string of `toFixed3` splits as a prefix, a dot, and
three explicit digit characters, so the fractional part after the last
dot is those three digits. -/
theorem fracAfterLastDot_three (pre : String) (a b c : Char)
    (ha : a ≠ '.') (hb : b ≠ '.') (hc : c ≠ '.') :
    fracAfterLastDot (pre ++ "." ++ String.mk [a, b, c]) = [a, b, c] := by
  have hdot : (("." : String)).data = ['.'] := rfl
  have h : (pre ++ "." ++ String.mk [a, b, c]).data = pre.data ++ '.' :: [a, b, c] := by
    simp [String.data_append, hdot]
  simp [fracAfterLastDot, h, List.takeWhile_cons, ha, hb, hc]

/-- On every rational input, `toFixed3` prints exactly three digits
after the decimal point. -/
theorem length_fracAfterLastDot_toFixed3 (q : ℚ) :
    (fracAfterLastDot (toFixed3 q)).length = 3 := by
  have hdig : ∀ d : ℕ, d < 10 → Nat.digitChar d ≠ '.' := by decide
  have hmod : (((|q| * 1000 + 1 / 2).floor % 1000)).toNat < 1000 := by
    have h1 := Int.emod_lt_of_pos ((|q| * 1000 + 1 / 2).floor)
      (by norm_num : (0 : ℤ) < 1000)
    have h2 := Int.emod_nonneg ((|q| * 1000 + 1 / 2).floor)
      (by norm_num : (1000 : ℤ) ≠ 0)
    omega
  have he : toFixed3 q =
      ((if q < 0 then "-" else "") ++
        toString ((|q| * 1000 + 1 / 2).floor / 1000)) ++ "." ++
        String.mk [Nat.digitChar ((((|q| * 1000 + 1 / 2).floor % 1000)).toNat / 100),
          Nat.digitChar ((((|q| * 1000 + 1 / 2).floor % 1000)).toNat / 10 % 10),
          Nat.digitChar ((((|q| * 1000 + 1 / 2).floor % 1000)).toNat % 10)] := rfl
  rw [he, fracAfterLastDot_three _ _ _ _
    (hdig _ (by omega)) (hdig _ (by omega)) (hdig _ (by omega))]
  rfl

/-- C10: `formatMeasurement` renders `null`, `undefined` and the empty
string as `0.000`; every finite numeric input renders through
`toFixed3` with exactly three digits after the decimal point; and the
`dashboard.js` and `part_001` definitions agree on every input. -/
theorem C10_formatMeasurement :
    (Dashboard.formatMeasurement .jsNull = "0.000" ∧
      Dashboard.formatMeasurement .jsUndefined = "0.000" ∧
      Dashboard.formatMeasurement .emptyString = "0.000") ∧
    (∀ q : ℚ, Dashboard.formatMeasurement (.num q) = toFixed3 q ∧
      (fracAfterLastDot (Dashboard.formatMeasurement (.num q))).length = 3) ∧
    (∀ value : JSVal,
      Dashboard.formatMeasurement value = Part001.formatMeasurement value) := by
  refine ⟨⟨rfl, rfl, rfl⟩,
    fun q => ⟨rfl, length_fracAfterLastDot_toFixed3 q⟩, fun value => ?_⟩
  cases value <;> rfl

/-- C8: with a final station loaded, a `get_final_station_statistics`
payload without an error field replaces the held statistics by the
payload fields with absent numerics defaulted to `0` and absent
`last_updated` defaulted to `Never`; a payload carrying an error, and an
absent payload, leave the held statistics unchanged. -/
theorem C8_loadFinalStationStatistics (st : FSState) (m : Machine)
    (hm : st.final_station = some m) :
    (∀ data : StatsPayload, data.error = none →
      FinalStation.loadFinalStationStatistics (.ok (some data)) st =
        { st with final_station_statistics :=
            { total_parts := data.total_parts.getD 0
              passed_parts := data.passed_parts.getD 0
              rejected_parts := data.rejected_parts.getD 0
              pass_rate := data.pass_rate.getD 0
              reject_rate := data.reject_rate.getD 0
              last_updated := data.last_updated.getD "Never" } }) ∧
    (∀ (data : StatsPayload) (e : String), data.error = some e →
      FinalStation.loadFinalStationStatistics (.ok (some data)) st = st) ∧
    FinalStation.loadFinalStationStatistics (.ok none) st = st := by
  refine ⟨fun data hd => ?_, fun data e hd => ?_, ?_⟩
  · simp [FinalStation.loadFinalStationStatistics, hm, hd]
  · simp [FinalStation.loadFinalStationStatistics, hm, hd]
  · simp [FinalStation.loadFinalStationStatistics, hm]

/-- Witness for C8: a concrete loaded station, a successful payload and
an error payload. -/
theorem C8_loadFinalStationStatistics_witness :
    (⟨some ⟨7⟩, ⟨0, 0, 0, 0, 0, "Never"⟩⟩ : FSState).final_station = some ⟨7⟩ ∧
    ((⟨none, some 12, some 10, some 2, some 95, some 5, some "today"⟩ :
        StatsPayload).error = none ∧
      FinalStation.loadFinalStationStatistics
          (.ok (some ⟨none, some 12, some 10, some 2, some 95, some 5, some "today"⟩))
          ⟨some ⟨7⟩, ⟨0, 0, 0, 0, 0, "Never"⟩⟩ =
        ⟨some ⟨7⟩, ⟨12, 10, 2, 95, 5, "today"⟩⟩) ∧
    ((⟨some "backend fault", none, none, none, none, none, none⟩ :
        StatsPayload).error = some "backend fault" ∧
      FinalStation.loadFinalStationStatistics
          (.ok (some ⟨some "backend fault", none, none, none, none, none, none⟩))
          ⟨some ⟨7⟩, ⟨0, 0, 0, 0, 0, "Never"⟩⟩ =
        ⟨some ⟨7⟩, ⟨0, 0, 0, 0, 0, "Never"⟩⟩) :=
  ⟨rfl,
    ⟨rfl, (C8_loadFinalStationStatistics ⟨some ⟨7⟩, ⟨0, 0, 0, 0, 0, "Never"⟩⟩ ⟨7⟩ rfl).1
      ⟨none, some 12, some 10, some 2, some 95, some 5, some "today"⟩ rfl⟩,
    ⟨rfl, (C8_loadFinalStationStatistics ⟨some ⟨7⟩, ⟨0, 0, 0, 0, 0, "Never"⟩⟩ ⟨7⟩ rfl).2.1
      ⟨some "backend fault", none, none, none, none, none, none⟩ "backend fault" rfl⟩⟩

/-- Loading a machine detail payload never changes the machine list. -/
theorem loadMachineDetail_machines (res : Except String DetailPayload)
    (st : DashState) :
    (Dashboard.loadMachineDetail res st).machines = st.machines := by
  rcases res with e | data
  · rfl
  · cases hd : data.error <;> simp [Dashboard.loadMachineDetail, hd]

/-- Loading a machine detail payload never changes the statistics. -/
theorem loadMachineDetail_statistics (res : Except String DetailPayload)
    (st : DashState) :
    (Dashboard.loadMachineDetail res st).statistics = st.statistics := by
  rcases res with e | data
  · rfl
  · cases hd : data.error <;> simp [Dashboard.loadMachineDetail, hd]

/-- C4 counterexample: the claim zeroes the machine list on every
failure of the dashboard-data query, but when the enhanced call fails
(here a request timeout) and the basic `searchRead` fallback succeeds,
`loadDashboardData` keeps the fallback machine list, which is nonempty
here. -/
theorem C4_counterexample :
    ¬ (Dashboard.loadDashboardData (.error "Request timeout") (.ok [⟨1⟩])
        (.ok ⟨none, [], 0⟩) ⟨[], none, none, none, none⟩).machines = [] := by
  decide

/-- C4 amended: on a failure of the enhanced dashboard-data call the
statistics are zeroed and the machine list comes from the basic
`searchRead` fallback; only when the fallback also fails does
`loadDashboardData` set the empty machine list and the all-zero
statistics, recording the failure message; in neither case does the
fault propagate (the embedded function is total). -/
theorem C4_loadDashboardData_fallback (e : String)
    (searchRes : Except String (List Machine))
    (detailRes : Except String DetailPayload) (st : DashState) :
    (∀ e2 : String, searchRes = .error e2 →
      Dashboard.loadDashboardData (.error e) searchRes detailRes st =
        { st with error := some ("Failed to load dashboard data: " ++ e2),
                  machines := [], statistics := some zeroStatistics }) ∧
    (∀ machines : List Machine, searchRes = .ok machines →
      (Dashboard.loadDashboardData (.error e) searchRes detailRes st).machines =
          machines ∧
        (Dashboard.loadDashboardData (.error e) searchRes detailRes st).statistics =
          some zeroStatistics) := by
  constructor
  · rintro e2 rfl
    simp [Dashboard.loadDashboardData, Dashboard.fetchDashboardData]
  · rintro machines rfl
    cases machines with
    | nil => simp [Dashboard.loadDashboardData, Dashboard.fetchDashboardData]
    | cons m ms =>
      have h1 : Dashboard.loadDashboardData (.error e) (.ok (m :: ms)) detailRes st =
          Dashboard.selectMachine detailRes m
            { st with machines := m :: ms, statistics := some zeroStatistics,
                      error := none } := by
        simp [Dashboard.loadDashboardData, Dashboard.fetchDashboardData]
      rw [h1, Dashboard.selectMachine]
      rw [loadMachineDetail_machines, loadMachineDetail_statistics]
      exact ⟨rfl, rfl⟩

/-- Witness for C4: a failing fallback zeroes everything; a succeeding
fallback keeps its machine list with zeroed statistics. -/
theorem C4_loadDashboardData_fallback_witness :
    ((Except.error "db down" : Except String (List Machine)) = .error "db down" ∧
      Dashboard.loadDashboardData (.error "Request timeout") (.error "db down")
          (.ok ⟨none, [], 0⟩) ⟨[], none, none, none, none⟩ =
        { (⟨[], none, none, none, none⟩ : DashState) with
            error := some ("Failed to load dashboard data: " ++ "db down"),
            machines := [], statistics := some zeroStatistics }) ∧
    ((Except.ok [⟨1⟩] : Except String (List Machine)) = .ok [⟨1⟩] ∧
      (Dashboard.loadDashboardData (.error "Request timeout") (.ok [⟨1⟩])
          (.ok ⟨none, [], 0⟩) ⟨[], none, none, none, none⟩).machines = [⟨1⟩] ∧
      (Dashboard.loadDashboardData (.error "Request timeout") (.ok [⟨1⟩])
          (.ok ⟨none, [], 0⟩) ⟨[], none, none, none, none⟩).statistics =
        some zeroStatistics) :=
  ⟨⟨rfl, (C4_loadDashboardData_fallback "Request timeout" (.error "db down")
      (.ok ⟨none, [], 0⟩) ⟨[], none, none, none, none⟩).1 "db down" rfl⟩,
    ⟨rfl, (C4_loadDashboardData_fallback "Request timeout" (.ok [⟨1⟩])
      (.ok ⟨none, [], 0⟩) ⟨[], none, none, none, none⟩).2 [⟨1⟩] rfl⟩⟩

/-- The loop body adds every row count into `total_parts`. -/
theorem statStep_total_parts (acc : Statistics) (g : Part000.StatGroup) :
    (Part000.statStep acc g).total_parts = acc.total_parts + g.count := by
  unfold Part000.statStep
  split_ifs <;> rfl

/-- The loop body writes `passed_parts` exactly on a `pass` row. -/
theorem statStep_passed_set (acc : Statistics) (g : Part000.StatGroup)
    (h : g.final_result = "pass") :
    (Part000.statStep acc g).passed_parts = g.count := by
  simp [Part000.statStep, h]

/-- On a row that is not a `pass` row, `passed_parts` is untouched. -/
theorem statStep_passed_skip (acc : Statistics) (g : Part000.StatGroup)
    (h : g.final_result ≠ "pass") :
    (Part000.statStep acc g).passed_parts = acc.passed_parts := by
  unfold Part000.statStep
  split_ifs <;> simp_all

/-- The loop body writes `rejected_parts` exactly on a `reject` row. -/
theorem statStep_rejected_set (acc : Statistics) (g : Part000.StatGroup)
    (h : g.final_result = "reject") :
    (Part000.statStep acc g).rejected_parts = g.count := by
  simp [Part000.statStep, h]

/-- On a row that is not a `reject` row, `rejected_parts` is untouched. -/
theorem statStep_rejected_skip (acc : Statistics) (g : Part000.StatGroup)
    (h : g.final_result ≠ "reject") :
    (Part000.statStep acc g).rejected_parts = acc.rejected_parts := by
  unfold Part000.statStep
  split_ifs <;> simp_all

/-- The loop body writes `pending_parts` exactly on a `pending` row. -/
theorem statStep_pending_set (acc : Statistics) (g : Part000.StatGroup)
    (h : g.final_result = "pending") :
    (Part000.statStep acc g).pending_parts = g.count := by
  simp [Part000.statStep, h]

/-- On a row that is not a `pending` row, `pending_parts` is untouched. -/
theorem statStep_pending_skip (acc : Statistics) (g : Part000.StatGroup)
    (h : g.final_result ≠ "pending") :
    (Part000.statStep acc g).pending_parts = acc.pending_parts := by
  unfold Part000.statStep
  split_ifs <;> simp_all

/-- The fold accumulates the sum of all row counts into `total_parts`. -/
theorem foldl_statStep_total_parts (stats : List Part000.StatGroup) :
    ∀ acc : Statistics,
      (stats.foldl Part000.statStep acc).total_parts =
        acc.total_parts + Part000.sumCounts stats := by
  induction stats with
  | nil => intro acc; simp [Part000.sumCounts]
  | cons g l ih =>
    intro acc
    simp only [List.foldl_cons, ih, statStep_total_parts, Part000.sumCounts,
      List.map_cons, List.sum_cons]
    omega

/-- A keyed field is unchanged by a fold over rows without that key. -/
theorem foldl_statStep_proj_skip (proj : Statistics → ℕ) (k : String)
    (hskip : ∀ (acc : Statistics) (g : Part000.StatGroup),
      g.final_result ≠ k → proj (Part000.statStep acc g) = proj acc)
    (stats : List Part000.StatGroup) :
    ∀ acc : Statistics, k ∉ stats.map Part000.StatGroup.final_result →
      proj (stats.foldl Part000.statStep acc) = proj acc := by
  induction stats with
  | nil => intro acc _; rfl
  | cons g l ih =>
    intro acc hk
    simp only [List.map_cons, List.mem_cons, not_or] at hk
    rw [List.foldl_cons, ih _ hk.2, hskip acc g (fun hgk => hk.1 hgk.symm)]

/-- With pairwise distinct keys, a keyed field of the fold holds the
count of the unique row with that key, or the initial field when no row
has it. -/
theorem foldl_statStep_proj (proj : Statistics → ℕ) (k : String)
    (hset : ∀ (acc : Statistics) (g : Part000.StatGroup),
      g.final_result = k → proj (Part000.statStep acc g) = g.count)
    (hskip : ∀ (acc : Statistics) (g : Part000.StatGroup),
      g.final_result ≠ k → proj (Part000.statStep acc g) = proj acc)
    (stats : List Part000.StatGroup) :
    ∀ acc : Statistics, (stats.map Part000.StatGroup.final_result).Nodup →
      proj (stats.foldl Part000.statStep acc) =
        match stats.find? (fun g => g.final_result == k) with
        | some g => g.count
        | none => proj acc := by
  induction stats with
  | nil => intro acc _; rfl
  | cons g l ih =>
    intro acc hnd
    simp only [List.map_cons, List.nodup_cons] at hnd
    by_cases hk : g.final_result = k
    · have hmem : k ∉ l.map Part000.StatGroup.final_result := hk ▸ hnd.1
      rw [List.foldl_cons, List.find?_cons_of_pos _ (by simp [hk]),
        foldl_statStep_proj_skip proj k hskip l _ hmem, hset acc g hk]
    · rw [List.foldl_cons, List.find?_cons_of_neg _ (by simp [hk]),
        ih _ hnd.2, hskip acc g hk]

/-- A key held by no row looks up to `0`. -/
theorem lookupCount_eq_zero (stats : List Part000.StatGroup) (k : String)
    (h : k ∉ stats.map Part000.StatGroup.final_result) :
    Part000.lookupCount stats k = 0 := by
  have hn : stats.find? (fun g => g.final_result == k) = none := by
    rw [List.find?_eq_none]
    intro g hg hpg
    exact h (List.mem_map.mpr ⟨g, hg, by simpa using hpg⟩)
  simp [Part000.lookupCount, hn]

/-- Looking up the key of the head row returns its count. -/
theorem lookupCount_cons_self (g : Part000.StatGroup) (l : List Part000.StatGroup)
    (k : String) (h : g.final_result = k) :
    Part000.lookupCount (g :: l) k = g.count := by
  unfold Part000.lookupCount
  rw [List.find?_cons_of_pos _ (by simp [h])]

/-- Looking up a key other than the head row's skips the head. -/
theorem lookupCount_cons_ne (g : Part000.StatGroup) (l : List Part000.StatGroup)
    (k : String) (h : g.final_result ≠ k) :
    Part000.lookupCount (g :: l) k = Part000.lookupCount l k := by
  unfold Part000.lookupCount
  rw [List.find?_cons_of_neg _ (by simp [h])]

/-- The sum of the counts over a cons. -/
theorem sumCounts_cons (g : Part000.StatGroup) (l : List Part000.StatGroup) :
    Part000.sumCounts (g :: l) = g.count + Part000.sumCounts l := by
  simp [Part000.sumCounts]

/-- With keys drawn from the three-value verdict domain and pairwise
distinct, the total count is the sum of the three keyed lookups. -/
theorem sumCounts_eq_lookups (stats : List Part000.StatGroup)
    (hdom : ∀ g ∈ stats, g.final_result = "pass" ∨ g.final_result = "reject" ∨
      g.final_result = "pending")
    (hnd : (stats.map Part000.StatGroup.final_result).Nodup) :
    Part000.sumCounts stats =
      Part000.lookupCount stats "pass" + Part000.lookupCount stats "reject" +
        Part000.lookupCount stats "pending" := by
  induction stats with
  | nil => rfl
  | cons g l ih =>
    simp only [List.map_cons, List.nodup_cons] at hnd
    have ihl := ih (fun g' hg' => hdom g' (List.mem_cons_of_mem _ hg')) hnd.2
    rcases hdom g (List.mem_cons_self _ _) with hg | hg | hg
    · have h0 : Part000.lookupCount l "pass" = 0 :=
        lookupCount_eq_zero l "pass" (hg ▸ hnd.1)
      rw [sumCounts_cons, lookupCount_cons_self g l "pass" hg,
        lookupCount_cons_ne g l "reject" (by rw [hg]; decide),
        lookupCount_cons_ne g l "pending" (by rw [hg]; decide), ihl, h0]
      omega
    · have h0 : Part000.lookupCount l "reject" = 0 :=
        lookupCount_eq_zero l "reject" (hg ▸ hnd.1)
      rw [sumCounts_cons, lookupCount_cons_self g l "reject" hg,
        lookupCount_cons_ne g l "pass" (by rw [hg]; decide),
        lookupCount_cons_ne g l "pending" (by rw [hg]; decide), ihl, h0]
      omega
    · have h0 : Part000.lookupCount l "pending" = 0 :=
        lookupCount_eq_zero l "pending" (hg ▸ hnd.1)
      rw [sumCounts_cons, lookupCount_cons_self g l "pending" hg,
        lookupCount_cons_ne g l "pass" (by rw [hg]; decide),
        lookupCount_cons_ne g l "reject" (by rw [hg]; decide), ihl, h0]
      omega

/-- C6: on `read_group` rows with pairwise distinct keys drawn from
`pass`, `reject`, `pending`, `processStatistics` returns the sum of all
counts as `total_parts` and each keyed count (0 when absent) in its
field, so the total is the sum of the three fields. -/
theorem C6_processStatistics (stats : List Part000.StatGroup)
    (hdom : ∀ g ∈ stats, g.final_result = "pass" ∨ g.final_result = "reject" ∨
      g.final_result = "pending")
    (hnd : (stats.map Part000.StatGroup.final_result).Nodup) :
    Part000.processStatistics stats =
      { total_parts := Part000.sumCounts stats
        passed_parts := Part000.lookupCount stats "pass"
        rejected_parts := Part000.lookupCount stats "reject"
        pending_parts := Part000.lookupCount stats "pending" } ∧
    (Part000.processStatistics stats).total_parts =
      (Part000.processStatistics stats).passed_parts +
        (Part000.processStatistics stats).rejected_parts +
        (Part000.processStatistics stats).pending_parts := by
  have ht : (Part000.processStatistics stats).total_parts =
      Part000.sumCounts stats := by
    have h := foldl_statStep_total_parts stats ⟨0, 0, 0, 0⟩
    simpa [Part000.processStatistics] using h
  have hp : (Part000.processStatistics stats).passed_parts =
      Part000.lookupCount stats "pass" :=
    foldl_statStep_proj Statistics.passed_parts "pass"
      statStep_passed_set statStep_passed_skip stats ⟨0, 0, 0, 0⟩ hnd
  have hr : (Part000.processStatistics stats).rejected_parts =
      Part000.lookupCount stats "reject" :=
    foldl_statStep_proj Statistics.rejected_parts "reject"
      statStep_rejected_set statStep_rejected_skip stats ⟨0, 0, 0, 0⟩ hnd
  have hpd : (Part000.processStatistics stats).pending_parts =
      Part000.lookupCount stats "pending" :=
    foldl_statStep_proj Statistics.pending_parts "pending"
      statStep_pending_set statStep_pending_skip stats ⟨0, 0, 0, 0⟩ hnd
  have hfirst : Part000.processStatistics stats =
      { total_parts := Part000.sumCounts stats
        passed_parts := Part000.lookupCount stats "pass"
        rejected_parts := Part000.lookupCount stats "reject"
        pending_parts := Part000.lookupCount stats "pending" } :=
    Statistics.ext ht hp hr hpd
  refine ⟨hfirst, ?_⟩
  rw [hfirst]
  exact sumCounts_eq_lookups stats hdom hnd

/-- Witness for C6 on three concrete rows, one per verdict. -/
theorem C6_processStatistics_witness :
    (∀ g ∈ ([⟨"pass", 3⟩, ⟨"reject", 2⟩, ⟨"pending", 1⟩] :
        List Part000.StatGroup),
      g.final_result = "pass" ∨ g.final_result = "reject" ∨
        g.final_result = "pending") ∧
    (([⟨"pass", 3⟩, ⟨"reject", 2⟩, ⟨"pending", 1⟩] :
        List Part000.StatGroup).map Part000.StatGroup.final_result).Nodup ∧
    (Part000.processStatistics [⟨"pass", 3⟩, ⟨"reject", 2⟩, ⟨"pending", 1⟩] =
      { total_parts :=
          Part000.sumCounts [⟨"pass", 3⟩, ⟨"reject", 2⟩, ⟨"pending", 1⟩]
        passed_parts :=
          Part000.lookupCount [⟨"pass", 3⟩, ⟨"reject", 2⟩, ⟨"pending", 1⟩] "pass"
        rejected_parts :=
          Part000.lookupCount [⟨"pass", 3⟩, ⟨"reject", 2⟩, ⟨"pending", 1⟩] "reject"
        pending_parts :=
          Part000.lookupCount [⟨"pass", 3⟩, ⟨"reject", 2⟩, ⟨"pending", 1⟩]
            "pending" } ∧
    (Part000.processStatistics
        [⟨"pass", 3⟩, ⟨"reject", 2⟩, ⟨"pending", 1⟩]).total_parts =
      (Part000.processStatistics
        [⟨"pass", 3⟩, ⟨"reject", 2⟩, ⟨"pending", 1⟩]).passed_parts +
        (Part000.processStatistics
          [⟨"pass", 3⟩, ⟨"reject", 2⟩, ⟨"pending", 1⟩]).rejected_parts +
        (Part000.processStatistics
          [⟨"pass", 3⟩, ⟨"reject", 2⟩, ⟨"pending", 1⟩]).pending_parts) :=
  ⟨by decide, by decide, C6_processStatistics _ (by decide) (by decide)⟩

/-- Inserting an element in the middle of a concatenation is a
permutation of consing it in front. -/
theorem perm_insert_mid (oe oi F : List ℕ) (pid : ℕ) :
    List.Perm (oe ++ (oi ++ pid :: F)) (pid :: (oe ++ (oi ++ F))) := by
  have h := @List.perm_middle ℕ pid (oe ++ oi) F
  simpa [List.append_assoc] using h

/-- The same with the two outer lists swapped on the left. -/
theorem perm_insert_mid_comm (oe oi F : List ℕ) (pid : ℕ) :
    List.Perm (oi ++ (oe ++ pid :: F)) (pid :: (oe ++ (oi ++ F))) := by
  refine (perm_insert_mid oi oe F pid).trans (List.Perm.cons _ ?_)
  have h := (@List.perm_append_comm ℕ oi oe).append_right F
  simpa [List.append_assoc] using h

/-- Adding a fresh part permutes the member pool to the part consed on
the old pool: nothing is lost, nothing else is added. -/
theorem allMembers_addPart (s : BoxSys) (t : BoxType) (pid : ℕ)
    (h : pid ∉ allMembers s) :
    List.Perm (allMembers (addPart s t pid)) (pid :: allMembers s) := by
  unfold addPart
  rw [if_neg h]
  cases t with
  | exhaust =>
    by_cases hseal : boxCapacity ≤ (openMembers s BoxType.exhaust ++ [pid]).length
    · rw [if_pos hseal]
      have hgoal := perm_insert_mid_comm s.openExhaust s.openIntake
        ((s.sealedBoxes.map Prod.snd).flatten) pid
      simpa [allMembers, openMembers, List.append_assoc] using hgoal
    · rw [if_neg hseal]
      simp [allMembers, openMembers, List.append_assoc]
  | intake =>
    by_cases hseal : boxCapacity ≤ (openMembers s BoxType.intake ++ [pid]).length
    · rw [if_pos hseal]
      have hgoal := perm_insert_mid s.openExhaust s.openIntake
        ((s.sealedBoxes.map Prod.snd).flatten) pid
      simpa [allMembers, openMembers, List.append_assoc] using hgoal
    · rw [if_neg hseal]
      have hgoal := perm_insert_mid s.openExhaust s.openIntake
        ((s.sealedBoxes.map Prod.snd).flatten) pid
      simpa [allMembers, openMembers, List.append_assoc] using hgoal

/-- Arrivals keep the member pool duplicate-free. -/
theorem nodup_allMembers_addPart (s : BoxSys) (t : BoxType) (pid : ℕ)
    (hnd : (allMembers s).Nodup) :
    (allMembers (addPart s t pid)).Nodup := by
  by_cases hmem : pid ∈ allMembers s
  · unfold addPart
    rw [if_pos hmem]
    exact hnd
  · exact ((allMembers_addPart s t pid hmem).nodup_iff).mpr
      (List.nodup_cons.mpr ⟨hmem, hnd⟩)

/-- An arrival never removes or rewrites a sealed box: each sealed box,
member list included, persists. -/
theorem addPart_sealed_mono (s : BoxSys) (t : BoxType) (pid : ℕ)
    (b : BoxType × List ℕ) (hb : b ∈ s.sealedBoxes) :
    b ∈ (addPart s t pid).sealedBoxes := by
  unfold addPart
  by_cases hmem : pid ∈ allMembers s
  · rw [if_pos hmem]; exact hb
  · rw [if_neg hmem]
    cases t with
    | exhaust =>
      split_ifs
      · exact List.mem_cons_of_mem _ hb
      · exact hb
    | intake =>
      split_ifs
      · exact List.mem_cons_of_mem _ hb
      · exact hb

/-- The empty start state satisfies the box invariant. -/
theorem boxInv_start : BoxInv BoxSys.start :=
  ⟨by simp [BoxSys.start, boxCapacity], by simp [BoxSys.start, boxCapacity],
    by intro b hb; simp [BoxSys.start] at hb,
    by simp [allMembers, BoxSys.start]⟩

/-- The box invariant is preserved by every arrival. -/
theorem boxInv_addPart (s : BoxSys) (t : BoxType) (pid : ℕ) (h : BoxInv s) :
    BoxInv (addPart s t pid) := by
  obtain ⟨h1, h2, h3, h4⟩ := h
  have hnd : (allMembers (addPart s t pid)).Nodup :=
    nodup_allMembers_addPart s t pid h4
  by_cases hmem : pid ∈ allMembers s
  · unfold addPart at hnd ⊢
    rw [if_pos hmem] at hnd ⊢
    exact ⟨h1, h2, h3, hnd⟩
  · unfold addPart at hnd ⊢
    rw [if_neg hmem] at hnd ⊢
    cases t with
    | exhaust =>
      by_cases hseal : boxCapacity ≤ (openMembers s BoxType.exhaust ++ [pid]).length
      · rw [if_pos hseal] at hnd ⊢
        refine ⟨by simp [boxCapacity], h2, ?_, hnd⟩
        intro b hb
        rcases List.mem_cons.mp hb with hb | hb
        · rw [hb]
          simp only [openMembers, List.length_append, List.length_cons,
            List.length_nil, boxCapacity] at hseal h1 ⊢
          omega
        · exact h3 b hb
      · rw [if_neg hseal] at hnd ⊢
        refine ⟨?_, h2, h3, hnd⟩
        simp only [openMembers, List.length_append, List.length_cons,
          List.length_nil] at hseal ⊢
        omega
    | intake =>
      by_cases hseal : boxCapacity ≤ (openMembers s BoxType.intake ++ [pid]).length
      · rw [if_pos hseal] at hnd ⊢
        refine ⟨h1, by simp [boxCapacity], ?_, hnd⟩
        intro b hb
        rcases List.mem_cons.mp hb with hb | hb
        · rw [hb]
          simp only [openMembers, List.length_append, List.length_cons,
            List.length_nil, boxCapacity] at hseal h2 ⊢
          omega
        · exact h3 b hb
      · rw [if_neg hseal] at hnd ⊢
        refine ⟨h1, ?_, h3, hnd⟩
        simp only [openMembers, List.length_append, List.length_cons,
          List.length_nil] at hseal ⊢
        omega

/-- Every reachable box-accounting state satisfies the invariant. -/
theorem boxInv_reachable (s : BoxSys) (hs : Reachable s) : BoxInv s := by
  induction hs with
  | start => exact boxInv_start
  | step s t pid hr ih => exact boxInv_addPart s t pid ih

/-- C2: in every reachable box-accounting state every box — open or
sealed — holds at most 540 members, no part identifier belongs to two
boxes, and a sealed box persists unchanged through every further
arrival: sealing is irreversible. -/
theorem C2_box_invariants (s : BoxSys) (hs : Reachable s) :
    boxCapacity = 540 ∧
    (s.openExhaust.length ≤ boxCapacity ∧ s.openIntake.length ≤ boxCapacity ∧
      ∀ b ∈ s.sealedBoxes, (Prod.snd b).length ≤ boxCapacity) ∧
    (allMembers s).Nodup ∧
    (∀ (t : BoxType) (pid : ℕ) (b : BoxType × List ℕ),
      b ∈ s.sealedBoxes → b ∈ (addPart s t pid).sealedBoxes) := by
  obtain ⟨h1, h2, h3, h4⟩ := boxInv_reachable s hs
  exact ⟨rfl, ⟨le_of_lt h1, le_of_lt h2, fun b hb => le_of_eq (h3 b hb)⟩, h4,
    fun t pid b hb => addPart_sealed_mono s t pid b hb⟩

/-- Witness for C2 at the reachable start state. -/
theorem C2_box_invariants_witness :
    boxCapacity = 540 ∧
    (BoxSys.start.openExhaust.length ≤ boxCapacity ∧
      BoxSys.start.openIntake.length ≤ boxCapacity ∧
      ∀ b ∈ BoxSys.start.sealedBoxes, (Prod.snd b).length ≤ boxCapacity) ∧
    (allMembers BoxSys.start).Nodup ∧
    (∀ (t : BoxType) (pid : ℕ) (b : BoxType × List ℕ),
      b ∈ BoxSys.start.sealedBoxes →
        b ∈ (addPart BoxSys.start t pid).sealedBoxes) :=
  C2_box_invariants BoxSys.start Reachable.start

end PacLine
